/-
Verification of the Directions hook scripts
(`docs/scripts/doc-suggester.py` and `docs/scripts/session-start.py`).

The Python sources are shallowly embedded below.  Python strings are
modelled by Lean `String` (a list of unicode scalar characters, matching
Python's per-code-point view of text); every string primitive used by the
scripts (`lower`, `strip`, `split`, slicing, `in`, `startswith`, word
boundary search) is re-implemented here by structural recursion over the
character list so that all definitions are executable and kernel-reducible.
File-system access is modelled at the boundary established by
`read_file_safely`: a directory is a list of (name, readable-content)
entries where `none` stands for a missing or unreadable file.
-/
import Mathlib

/-! ## String primitives (models of the Python built-ins used by the scripts) -/

/-- Model of Python `str.lower` (faithful on ASCII text, which is all the
scripts' keyword tables and documents use). -/
def lowerStr (s : String) : String := ⟨s.data.map Char.toLower⟩

/-- Model of Python `needle in hay` (substring containment). -/
def listContains (needle : List Char) : List Char → Bool
  | [] => needle.isEmpty
  | c :: rest => needle.isPrefixOf (c :: rest) || listContains needle rest

/-- Model of Python `needle in hay` on strings. -/
def containsSub (needle hay : String) : Bool := listContains needle.data hay.data

/-- Model of Python `s.startswith(pre)`. -/
def pyStartsWith (s pre : String) : Bool := pre.data.isPrefixOf s.data

/-- Model of Python `s.endswith(suf)`. -/
def pyEndsWith (s suf : String) : Bool := suf.data.reverse.isPrefixOf s.data.reverse

/-- Strip characters satisfying `p` from the left end of a character list. -/
def stripLeft (p : Char → Bool) (l : List Char) : List Char := l.dropWhile p

/-- Strip characters satisfying `p` from the right end of a character list. -/
def stripRight (p : Char → Bool) (l : List Char) : List Char :=
  (l.reverse.dropWhile p).reverse

/-- Strip characters satisfying `p` from both ends of a character list. -/
def stripBoth (p : Char → Bool) (l : List Char) : List Char :=
  stripRight p (stripLeft p l)

/-- Model of Python `s.strip()` (whitespace strip from both ends). -/
def pyStrip (s : String) : String := ⟨stripBoth Char.isWhitespace s.data⟩

/-- Model of Python `s.strip("*")`. -/
def stripStars (s : String) : String := ⟨stripBoth (fun c => c == '*') s.data⟩

/-- Model of Python `s.lstrip("-*")`. -/
def lstripDashStar (s : String) : String :=
  ⟨stripLeft (fun c => c == '-' || c == '*') s.data⟩

/-- Model of Python `s[:n]` (take the first `n` characters). -/
def pyTake (n : Nat) (s : String) : String := ⟨s.data.take n⟩

/-- Model of Python truthiness on a string: `True` iff non-empty. -/
def isEmptyStr (s : String) : Bool := s.data.isEmpty

/-- Model of Python `content.split("\n")`: split on every newline, keeping
empty pieces; an empty string yields one empty piece. -/
def splitNL : List Char → List Char → List (List Char)
  | [], acc => [acc.reverse]
  | c :: rest, acc =>
    if c == '\n' then acc.reverse :: splitNL rest []
    else splitNL rest (c :: acc)

/-- Model of Python `content.split("\n")` on strings. -/
def splitLines (s : String) : List String :=
  (splitNL s.data []).map (fun cs => ⟨cs⟩)

/-- Model of Python `"\n".join(parts)`. -/
def joinLines : List String → String
  | [] => ""
  | [l] => l
  | l :: ls => l ++ "\n" ++ joinLines ls

/-- Model of Python `", ".join(parts)`. -/
def joinComma : List String → String
  | [] => ""
  | [l] => l
  | l :: ls => l ++ ", " ++ joinComma ls

/-- Model of Python `line.split(":", 1)[1]`: everything after the first
colon (callers in the scripts only invoke this on lines known to contain a
colon; on a colon-free line the model returns `""`). -/
def afterFirstColon (s : String) : String :=
  match s.data.dropWhile (fun c => !(c == ':')) with
  | [] => ""
  | _ :: rest => ⟨rest⟩

/-! ## doc-suggester.py -/

/-- A regex word character (`\w`), as used by Python's word boundary `\b`;
faithful on the ASCII keywords of the mapping table. -/
def isWordChar (c : Char) : Bool := c.isAlphanum || c == '_'

/-- Is the position before the search window a word boundary?  `prev` is
the character immediately before the candidate occurrence (`none` at the
start of the string). -/
def okBoundaryBefore : Option Char → Bool
  | none => true
  | some c => !isWordChar c

/-- Is the position after the matched keyword a word boundary?  The
argument is the remainder of the string after the occurrence. -/
def okBoundaryAfter : List Char → Bool
  | [] => true
  | c :: _ => !isWordChar c

/-- Model of Python `re.search(r"\b" + re.escape(kw) + r"\b", s)` for a
keyword consisting of word characters: scan every position of `s` for an
occurrence of `kw` flanked by word boundaries. -/
def wbSearchAux (kw : List Char) : Option Char → List Char → Bool
  | _, [] => false
  | prev, c :: rest =>
    (okBoundaryBefore prev && kw.isPrefixOf (c :: rest)
        && okBoundaryAfter ((c :: rest).drop kw.length))
      || wbSearchAux kw (some c) rest

/-- The character immediately preceding the suffix of the search string
that starts after `pre`, when the scan began with `prev` before it: the
last character of `pre`, or `prev` when `pre` is empty.  Used to relate
`wbSearchAux` to a declarative boundary occurrence. -/
def lastOpt (prev : Option Char) : List Char → Option Char
  | [] => prev
  | c :: rest => lastOpt (some c) rest

/-- Matching of one keyword against the lowercased prompt
(doc-suggester.py lines 98-105): keywords of length at most 4 are matched
with word boundaries, longer keywords as plain substrings. -/
def keywordMatches (kw promptLower : String) : Bool :=
  if kw.length ≤ 4 then wbSearchAux kw.data none promptLower.data
  else containsSub kw promptLower

/-- One entry of the keyword-to-doc mapping table. -/
structure Mapping where
  keywords : List String
  doc : String
  description : String
deriving DecidableEq

def coordMapping : Mapping :=
  { keywords := ["coordinate", "position", "frame", "bounds", "cgpoint",
                 "cgrect", "origin", "anchor"],
    doc := "21_coordinate-systems.md",
    description := "coordinate systems and positioning" }

def swiftuiMapping : Mapping :=
  { keywords := ["not updating", "not refreshing", "state not changing",
                 "observableobject", "@state", "@binding", "published",
                 "view update", "refresh view", "redraw"],
    doc := "20_swiftui-gotchas.md",
    description := "SwiftUI state and view updates" }

def sandboxMapping : Mapping :=
  { keywords := ["sandbox", "bookmark", "entitlement", "security-scoped",
                 "app sandbox", "file access", "permission"],
    doc := "22_macos-platform.md",
    description := "macOS sandboxing and entitlements" }

def debugMapping : Mapping :=
  { keywords := ["debug", "bug", "broken", "not working", "crash", "error",
                 "issue", "problem"],
    doc := "31_debugging.md",
    description := "debugging strategies" }

def shipMapping : Mapping :=
  { keywords := ["ship", "release", "production", "deploy", "publish",
                 "app store", "testflight"],
    doc := "30_production-checklist.md",
    description := "production readiness" }

def typographyMapping : Mapping :=
  { keywords := ["typography", "font", "text style", "sf pro", "dynamic type"],
    doc := "40_typography.md",
    description := "typography guidelines" }

def gitMapping : Mapping :=
  { keywords := ["git", "commit", "branch", "merge", "pull request", "pr"],
    doc := "32_git-workflow.md",
    description := "git workflow" }

def archMapping : Mapping :=
  { keywords := ["architecture", "design decision", "pattern", "structure",
                 "approach"],
    doc := "04_architecture-decisions.md",
    description := "architecture decision records" }

def newProjectMapping : Mapping :=
  { keywords := ["new project", "start", "scaffold", "setup", "initialize"],
    doc := "10_new-project.md",
    description := "new project setup" }

def planMapping : Mapping :=
  { keywords := ["plan", "planning", "roadmap", "scope", "estimate"],
    doc := "51_planning-patterns.md",
    description := "planning patterns" }

def webMapping : Mapping :=
  { keywords := ["web", "html", "css", "javascript", "browser", "responsive"],
    doc := "24_web-gotchas.md",
    description := "web development gotchas" }

def uiMapping : Mapping :=
  { keywords := ["button", "menu", "toolbar", "sidebar", "navigation", "tab",
                 "modal", "sheet"],
    doc := "41_apple-ui.md",
    description := "Apple UI patterns" }

/-- The keyword-to-doc mapping table (doc-suggester.py lines 18-79),
in source order. -/
def DOC_MAPPINGS : List Mapping :=
  [coordMapping, swiftuiMapping, sandboxMapping, debugMapping, shipMapping,
   typographyMapping, gitMapping, archMapping, newProjectMapping,
   planMapping, webMapping, uiMapping]

/-- Does some keyword of the rule match the lowercased prompt?  The Python
loop returns the enclosing mapping at the first matching keyword, so the
returned value only depends on whether any keyword matches. -/
def ruleMatches (promptLower : String) (m : Mapping) : Bool :=
  m.keywords.any (fun kw => keywordMatches kw promptLower)

/-- Model of `find_matching_doc` (doc-suggester.py lines 92-107): lowercase
the prompt once, then return the first rule in table order with a matching
keyword. -/
def find_matching_doc (prompt : String) : Option Mapping :=
  DOC_MAPPINGS.find? (ruleMatches (lowerStr prompt))

/-! ## session-start.py -/

/-- The shared line scan of `extract_current_phase` (session-start.py lines
29-36) and `extract_current_focus` (lines 39-46); the two functions are
identical except for the three string literals, passed here as `bl`
(bold label), `plb` (plain label) and `ph` (lowercase phrase).  The scan is
single pass: the first line that satisfies either test decides the result
and ends the scan. -/
def extractFieldLines (bl plb ph : String) : List String → Option String
  | [] => none
  | l :: ls =>
    if pyStartsWith l bl || pyStartsWith l plb then
      some (stripStars (pyStrip (afterFirstColon l)))
    else if containsSub ph (lowerStr l) then
      (if containsSub ":" l then some (pyStrip (afterFirstColon l)) else none)
    else extractFieldLines bl plb ph ls

/-- Model of `extract_current_phase` (session-start.py lines 29-36). -/
def extract_current_phase (content : String) : Option String :=
  extractFieldLines "**Phase:**" "Phase:" "current phase" (splitLines content)

/-- Model of `extract_current_focus` (session-start.py lines 39-46). -/
def extract_current_focus (content : String) : Option String :=
  extractFieldLines "**Focus:**" "Focus:" "current focus" (splitLines content)

/-- The loop of `extract_blockers` (session-start.py lines 49-66): `inB` is
the `in_blockers` flag, `acc` the collected bullets in order. -/
def extract_blockers_loop : List String → Bool → List String → List String
  | [], _, acc => acc
  | l :: ls, inB, acc =>
    if containsSub "blocker" (lowerStr l) && containsSub "#" l then
      extract_blockers_loop ls true acc
    else if inB then
      if pyStartsWith l "#" then acc
      else if pyStartsWith (pyStrip l) "-" || pyStartsWith (pyStrip l) "*" then
        let b := pyStrip (lstripDashStar (pyStrip l))
        if !isEmptyStr b && !(lowerStr b == "none") then
          extract_blockers_loop ls inB (acc ++ [b])
        else extract_blockers_loop ls inB acc
      else extract_blockers_loop ls inB acc
    else extract_blockers_loop ls inB acc

/-- Model of `extract_blockers` (session-start.py lines 49-66). -/
def extract_blockers (content : String) : List String :=
  extract_blockers_loop (splitLines content) false []

/-! ### File-system model

`read_file_safely` (session-start.py lines 21-26) converts a missing or
permission-denied file into `None` at the point of access; the model makes
that boundary explicit: a directory entry carries `none` exactly when
reading the file would raise `FileNotFoundError` or `PermissionError`. -/

/-- A directory entry: a file name together with its readable content, or
`none` when the file cannot be read. -/
structure FsEntry where
  name : String
  content : Option String
deriving DecidableEq

/-- A snapshot of a directory. -/
structure FsDir where
  files : List FsEntry
deriving DecidableEq

/-- Model of `read_file_safely` (session-start.py lines 21-26) applied to a
file of directory `d`: the content when readable, `none` otherwise. -/
def read_file_safely (d : FsDir) (n : String) : Option String :=
  match d.files.find? (fun e => e.name == n) with
  | some e => e.content
  | none => none

/-- Model of Python string comparison `<` (lexicographic by code point),
as used by `sorted` on the session file names. -/
def lexLt : List Char → List Char → Bool
  | [], [] => false
  | [], _ :: _ => true
  | _ :: _, [] => false
  | a :: as, b :: bs =>
    if a.toNat < b.toNat then true
    else if b.toNat < a.toNat then false
    else lexLt as bs

/-- Python `<` on strings. -/
def pyLt (a b : String) : Bool := lexLt a.data b.data

/-- Insert into a descending list, keeping it descending. -/
def insertDesc (x : String) : List String → List String
  | [] => [x]
  | y :: ys => if pyLt x y then y :: insertDesc x ys else x :: y :: ys

/-- Model of Python `sorted(names, reverse=True)`: sort into descending
lexicographic order. -/
def sortDesc : List String → List String
  | [] => []
  | x :: xs => insertDesc x (sortDesc xs)

/-- The qualifying session-log file names of a directory: the
`glob("*.md")` result minus the reserved `_index.md`
(session-start.py line 75). -/
def qualifying (d : FsDir) : List String :=
  (d.files.map FsEntry.name).filter
    (fun n => pyEndsWith n ".md" && !(n == "_index.md"))

/-- Is a stripped line usable as the session summary (the test
`if line and not line.startswith("#") and len(line) > 10`,
session-start.py line 90)? -/
def summaryQualifies (t : String) : Bool :=
  !isEmptyStr t && !pyStartsWith t "#" && decide (10 < t.length)

/-- The truncation applied to the chosen summary line
(`line[:100] + "..." if len(line) > 100 else line`,
session-start.py line 91). -/
def summaryTruncate (t : String) : String :=
  if decide (100 < t.length) then pyTake 100 t ++ "..." else t

/-- The summary scan of `get_latest_session` (session-start.py lines
87-92): the first stripped line that is non-empty, is not a heading and is
longer than 10 characters, truncated to 100 characters plus `"..."` when
longer than 100. -/
def summary_loop : List String → Option String
  | [] => none
  | l :: ls =>
    if summaryQualifies (pyStrip l) then some (summaryTruncate (pyStrip l))
    else summary_loop ls

/-- Declarative form of the summary scan, following the specification's
words: the first line that, after trimming, is non-empty, not a heading and
longer than 10 characters, truncated at 100 characters. -/
def summarySpec (ls : List String) : Option String :=
  ((ls.map pyStrip).find? summaryQualifies).map summaryTruncate

/-- Model of `get_latest_session` (session-start.py lines 69-94).  `dir` is
`none` when the sessions directory does not exist. -/
def get_latest_session (dir : Option FsDir) : Option String × Option String :=
  match dir with
  | none => (none, none)
  | some d =>
    match sortDesc (qualifying d) with
    | [] => (none, none)
    | latest :: _ =>
      (some latest,
        match read_file_safely d latest with
        | some c => if isEmptyStr c then none else summary_loop (splitLines c)
        | none => none)

/-! ### Context composition -/

/-- The message parts assembled by `build_context_message`
(session-start.py lines 117-134), as a function of the extracted inputs
(`projectDetected = true` branch; Python truthiness makes `None` and the
empty string behave alike, and an empty blockers list is skipped). -/
def build_context_parts (phase focus : Option String) (blockers : List String)
    (latest_session session_summary : Option String) : List String :=
  ["This project uses **Directions** for documentation and workflow."]
  ++ (match phase with
      | some p => if isEmptyStr p then [] else ["**Current Phase:** " ++ p]
      | none => [])
  ++ (match focus with
      | some f => if isEmptyStr f then [] else ["**Current Focus:** " ++ f]
      | none => [])
  ++ (if blockers.isEmpty then [] else ["**Blockers:** " ++ joinComma blockers])
  ++ (match latest_session with
      | some n =>
        if isEmptyStr n then [] else
          ["**Last Session:** " ++ n]
          ++ (match session_summary with
              | some s => if isEmptyStr s then [] else ["  _" ++ s ++ "_"]
              | none => [])
      | none => [])
  ++ [""]
  ++ ["Use `/status` for full details or `/log` to update the session log."]

/-- The message string of `build_context_message` (session-start.py line
137), as a function of the extracted inputs. -/
def build_context_message_pure (phase focus : Option String)
    (blockers : List String) (latest_session session_summary : Option String) :
    String :=
  joinLines (build_context_parts phase focus blockers latest_session
    session_summary)

/-- Model of `build_context_message` (session-start.py lines 97-138) with
the file system at its I/O boundary: `state_content` is the result of
`read_file_safely` on PROJECT_STATE.md, `sessions` the sessions directory
(`none` when absent). -/
def build_context_message (state_content : Option String)
    (sessions : Option FsDir) : String :=
  let phase := match state_content with
    | some c => if isEmptyStr c then none else extract_current_phase c
    | none => none
  let focus := match state_content with
    | some c => if isEmptyStr c then none else extract_current_focus c
    | none => none
  let blockers := match state_content with
    | some c => if isEmptyStr c then [] else extract_blockers c
    | none => []
  let ls := get_latest_session sessions
  build_context_message_pure phase focus blockers ls.1 ls.2

/-! ## Helper lemmas -/

/-- `List.find?` returns the first satisfying element: from a satisfying
element at index `i` one obtains a satisfying element at some index
`k ≤ i` that `find?` returns. -/
theorem find_first_of_get {α : Type} (p : α → Bool) (l : List α) :
    ∀ (i : Nat) (hi : i < l.length), p (l.get ⟨i, hi⟩) = true →
      ∃ k, ∃ hk : k < l.length, k ≤ i ∧ p (l.get ⟨k, hk⟩) = true ∧
        l.find? p = some (l.get ⟨k, hk⟩) := by
  induction l with
  | nil => intro i hi _; exact absurd hi (Nat.not_lt_zero i)
  | cons a t ih =>
    intro i hi hp
    cases hpa : p a with
    | true =>
      refine ⟨0, Nat.succ_pos _, Nat.zero_le _, hpa, ?_⟩
      show (a :: t).find? p = some a
      rw [List.find?_cons_of_pos _ hpa]
    | false =>
      cases i with
      | zero =>
        have hp0 : p a = true := hp
        exact absurd hp0 (by simp [hpa])
      | succ n =>
        have hn : n < t.length := Nat.lt_of_succ_lt_succ hi
        have hp' : p (t.get ⟨n, hn⟩) = true := hp
        obtain ⟨k, hk, hki, hpk, hfind⟩ := ih n hn hp'
        refine ⟨k + 1, Nat.succ_lt_succ hk, Nat.succ_le_succ hki, hpk, ?_⟩
        show (a :: t).find? p = some (t.get ⟨k, hk⟩)
        rw [List.find?_cons_of_neg _ (by simp [hpa])]
        exact hfind

theorem lexLt_irrefl (l : List Char) : lexLt l l = false := by
  induction l with
  | nil => rfl
  | cons a as ih => simp [lexLt, ih]

theorem lexLt_asymm {x y : List Char} (h : lexLt x y = true) :
    lexLt y x = false := by
  induction x generalizing y with
  | nil =>
    cases y with
    | nil => simp [lexLt] at h
    | cons b bs => rfl
  | cons a as ih =>
    cases y with
    | nil => simp [lexLt] at h
    | cons b bs =>
      by_cases hab : a.toNat < b.toNat
      · have hba : ¬ b.toNat < a.toNat := by omega
        simp [lexLt, hab, hba]
      · by_cases hba : b.toNat < a.toNat
        · simp [lexLt, hab, hba] at h
        · have h' : lexLt as bs = true := by simpa [lexLt, hab, hba] using h
          simp [lexLt, hab, hba, ih h']

/-- Strict lexicographic order is connected through any middle list:
`x < z` implies `x < y` or `y < z`. -/
theorem lexLt_connex {x z : List Char} (h : lexLt x z = true) :
    ∀ y : List Char, lexLt x y = true ∨ lexLt y z = true := by
  induction x generalizing z with
  | nil =>
    cases z with
    | nil => simp [lexLt] at h
    | cons c cs =>
      intro y
      cases y with
      | nil => right; rfl
      | cons b bs => left; rfl
  | cons a as ih =>
    cases z with
    | nil => simp [lexLt] at h
    | cons c cs =>
      intro y
      cases y with
      | nil => right; rfl
      | cons b bs =>
        by_cases hac : a.toNat < c.toNat
        · by_cases hab : a.toNat < b.toNat
          · left; simp [lexLt, hab]
          · have hbc : b.toNat < c.toNat := by omega
            right; simp [lexLt, hbc]
        · by_cases hca : c.toNat < a.toNat
          · simp [lexLt, hac, hca] at h
          · have h' : lexLt as cs = true := by simpa [lexLt, hac, hca] using h
            by_cases hab : a.toNat < b.toNat
            · left; simp [lexLt, hab]
            · by_cases hba : b.toNat < a.toNat
              · have hbc : b.toNat < c.toNat := by omega
                right; simp [lexLt, hbc]
              · rcases ih h' bs with h1 | h2
                · left; simp [lexLt, hab, hba, h1]
                · right
                  have hbc : ¬ b.toNat < c.toNat := by omega
                  have hcb : ¬ c.toNat < b.toNat := by omega
                  simp [lexLt, hbc, hcb, h2]

theorem pyLt_irrefl (s : String) : pyLt s s = false := lexLt_irrefl s.data

theorem pyLt_asymm {a b : String} (h : pyLt a b = true) : pyLt b a = false :=
  lexLt_asymm h

theorem pyLt_false_trans {x y z : String} (hxy : pyLt x y = false)
    (hyz : pyLt y z = false) : pyLt x z = false := by
  cases hxz : pyLt x z with
  | false => rfl
  | true =>
    rcases lexLt_connex hxz y.data with h | h
    · exact absurd h (by simp [pyLt] at hxy; simp [hxy])
    · exact absurd h (by simp [pyLt] at hyz; simp [hyz])

theorem mem_insertDesc {m x : String} :
    ∀ {l : List String}, m ∈ insertDesc x l ↔ m = x ∨ m ∈ l := by
  intro l
  induction l with
  | nil => simp [insertDesc]
  | cons y ys ih =>
    by_cases h : pyLt x y = true
    · simp only [insertDesc, h, if_true, List.mem_cons, ih]
      tauto
    · have h' : pyLt x y = false := by revert h; cases pyLt x y <;> simp
      simp [insertDesc, h']

theorem mem_sortDesc {m : String} :
    ∀ {l : List String}, m ∈ sortDesc l ↔ m ∈ l := by
  intro l
  induction l with
  | nil => simp [sortDesc]
  | cons x xs ih => simp [sortDesc, mem_insertDesc, ih]

/-- The head of the descending sort is a member of the input and is not
less than any member. -/
theorem sortDesc_head_spec :
    ∀ (l : List String) (h : String) (t : List String),
      sortDesc l = h :: t → h ∈ l ∧ ∀ m ∈ l, pyLt h m = false := by
  intro l
  induction l with
  | nil => intro h t hs; simp [sortDesc] at hs
  | cons x xs ih =>
    intro h t hs
    simp only [sortDesc] at hs
    cases hsx : sortDesc xs with
    | nil =>
      rw [hsx] at hs
      simp only [insertDesc] at hs
      obtain ⟨hh, ht⟩ := List.cons.inj hs
      constructor
      · rw [← hh]; exact List.mem_cons_self x xs
      · intro m hm
        rcases List.mem_cons.mp hm with rfl | hmxs
        · rw [← hh]; exact pyLt_irrefl m
        · exact absurd (mem_sortDesc.mpr hmxs) (by rw [hsx]; simp)
    | cons hh tt =>
      rw [hsx] at hs
      obtain ⟨hmem, hub⟩ := ih hh tt hsx
      simp only [insertDesc] at hs
      by_cases hx : pyLt x hh = true
      · rw [if_pos hx] at hs
        obtain ⟨hEq, _⟩ := List.cons.inj hs
        constructor
        · rw [← hEq]; exact List.mem_cons_of_mem x hmem
        · intro m hm
          rcases List.mem_cons.mp hm with rfl | hmxs
          · rw [← hEq]; exact pyLt_asymm hx
          · rw [← hEq]; exact hub m hmxs
      · rw [if_neg hx] at hs
        have hx' : pyLt x hh = false := by revert hx; cases pyLt x hh <;> simp
        obtain ⟨hEq, _⟩ := List.cons.inj hs
        constructor
        · rw [← hEq]; exact List.mem_cons_self x xs
        · intro m hm
          rcases List.mem_cons.mp hm with rfl | hmxs
          · rw [← hEq]; exact pyLt_irrefl m
          · rw [← hEq]; exact pyLt_false_trans hx' (hub m hmxs)

/-- Soundness of the word-boundary search: a successful search yields an
occurrence of the keyword flanked by word boundaries. -/
theorem wbSearchAux_sound (kw : List Char) :
    ∀ (s : List Char) (prev : Option Char), wbSearchAux kw prev s = true →
      ∃ pre post, s = pre ++ kw ++ post ∧
        okBoundaryBefore (lastOpt prev pre) = true ∧
        okBoundaryAfter post = true := by
  intro s
  induction s with
  | nil => intro prev h; simp [wbSearchAux] at h
  | cons c rest ih =>
    intro prev h
    simp only [wbSearchAux, Bool.or_eq_true, Bool.and_eq_true] at h
    rcases h with ⟨⟨hbefore, hpref⟩, hafter⟩ | hB
    · obtain ⟨post, hpost⟩ :=
        (List.isPrefixOf_iff_prefix.mp hpref : kw <+: c :: rest)
      refine ⟨[], post, by simp [← hpost], ?_, ?_⟩
      · simpa [lastOpt] using hbefore
      · rwa [← hpost, List.drop_left] at hafter
    · obtain ⟨pre, post, hs, hb, ha⟩ := ih (some c) hB
      exact ⟨c :: pre, post, by simp [hs], hb, ha⟩

/-- The recursive summary scan computes the declarative
first-qualifying-line specification. -/
theorem summary_loop_eq (ls : List String) : summary_loop ls = summarySpec ls := by
  induction ls with
  | nil => rfl
  | cons l t ih =>
    cases hq : summaryQualifies (pyStrip l) with
    | true =>
      unfold summary_loop summarySpec
      rw [List.map_cons, List.find?_cons_of_pos _ hq, if_pos hq]
      rfl
    | false =>
      unfold summary_loop summarySpec
      rw [List.map_cons, List.find?_cons_of_neg _ (by simp [hq]), if_neg (by simp [hq])]
      exact ih

/-! ## Claims -/

/-- Claim C1, counterexample: the prompt "coordinate crash" contains the
substring "crash", yet the router returns the coordinate-systems rule, not
the debugging rule — an earlier rule in the table wins, so the claim's
"regardless of what other text surrounds it" is false. -/
theorem c1_crash_counterexample :
    containsSub "crash" (lowerStr "coordinate crash") = true ∧
    find_matching_doc "coordinate crash" = some coordMapping ∧
    coordMapping ≠ debugMapping :=
  ⟨by decide, by decide, by decide⟩

/-- Claim C1, amended: for every prompt whose lowercased text contains the
substring "crash" and which matches no keyword of the three rules that
precede the debugging rule in the table, the router returns the
debugging-doc rule (doc "31_debugging.md"). -/
theorem c1_crash_routes_to_debugging (prompt : String)
    (hcrash : containsSub "crash" (lowerStr prompt) = true)
    (h0 : ruleMatches (lowerStr prompt) coordMapping = false)
    (h1 : ruleMatches (lowerStr prompt) swiftuiMapping = false)
    (h2 : ruleMatches (lowerStr prompt) sandboxMapping = false) :
    find_matching_doc prompt = some debugMapping ∧
    debugMapping.doc = "31_debugging.md" := by
  refine ⟨?_, rfl⟩
  have hkw : keywordMatches "crash" (lowerStr prompt) = true := hcrash
  have hd : ruleMatches (lowerStr prompt) debugMapping = true := by
    show List.any ["debug", "bug", "broken", "not working", "crash", "error",
      "issue", "problem"] (fun kw => keywordMatches kw (lowerStr prompt)) = true
    simp only [List.any_cons, List.any_nil]
    rw [hkw]
    simp
  show DOC_MAPPINGS.find? (ruleMatches (lowerStr prompt)) = some debugMapping
  rw [show DOC_MAPPINGS = coordMapping :: swiftuiMapping :: sandboxMapping ::
      debugMapping :: [shipMapping, typographyMapping, gitMapping, archMapping,
      newProjectMapping, planMapping, webMapping, uiMapping] from rfl]
  rw [List.find?_cons_of_neg _ (by simp [h0]),
      List.find?_cons_of_neg _ (by simp [h1]),
      List.find?_cons_of_neg _ (by simp [h2]),
      List.find?_cons_of_pos _ hd]

/-- Witness for the amended claim C1 at a concrete prompt. -/
theorem c1_crash_routes_to_debugging_w :
    find_matching_doc "the app will crash on launch" = some debugMapping ∧
    debugMapping.doc = "31_debugging.md" :=
  c1_crash_routes_to_debugging "the app will crash on launch"
    (by decide) (by decide) (by decide) (by decide)

/-- Claim C2, counterexample: the document "current phase\nPhase: Build"
contains a line starting with the literal label `Phase:`, but the extractor
returns no phase at all: the earlier "current phase" fallback line (which
has no colon) ends the single-pass scan, so the fallback is not restricted
to documents without a literal-label line. -/
theorem c2_phrase_line_shadows_label :
    pyStartsWith "Phase: Build" "Phase:" = true ∧
    extract_current_phase "current phase\nPhase: Build" = none :=
  ⟨by decide, by decide⟩

/-- Claim C2, amended: phase/focus extraction is a single pass with
per-line priority, not two-tier.  The first line satisfying either test
decides the result: if it starts with the literal label the value is the
after-colon text stripped of whitespace and then of asterisks; otherwise
(a line containing the phrase) the value is the whitespace-stripped
after-colon text when the line has a colon and absent when it does not —
in either case all later lines, including literal-label lines, are
ignored.  The property is stated for the shared scan `extractFieldLines`;
the first two conjuncts record that `extract_current_phase` and
`extract_current_focus` are exactly that scan at their respective
label/phrase triples. -/
theorem c2_single_pass_extraction :
    (∀ c, extract_current_phase c =
      extractFieldLines "**Phase:**" "Phase:" "current phase" (splitLines c)) ∧
    (∀ c, extract_current_focus c =
      extractFieldLines "**Focus:**" "Focus:" "current focus" (splitLines c)) ∧
    ∀ (bl plb ph : String) (pre post : List String) (l : String),
      (∀ x ∈ pre, (pyStartsWith x bl || pyStartsWith x plb) = false ∧
        containsSub ph (lowerStr x) = false) →
      ((pyStartsWith l bl || pyStartsWith l plb) = true →
        extractFieldLines bl plb ph (pre ++ l :: post) =
          some (stripStars (pyStrip (afterFirstColon l)))) ∧
      ((pyStartsWith l bl || pyStartsWith l plb) = false →
        containsSub ph (lowerStr l) = true →
        extractFieldLines bl plb ph (pre ++ l :: post) =
          (if containsSub ":" l then some (pyStrip (afterFirstColon l))
           else none)) := by
  refine ⟨fun c => rfl, fun c => rfl, ?_⟩
  intro bl plb ph pre post l
  induction pre with
  | nil =>
    intro _
    constructor
    · intro hl
      simp [extractFieldLines, hl]
    · intro hl hph
      simp [extractFieldLines, hl, hph]
  | cons a t ih =>
    intro hpre
    have ha := hpre a (List.mem_cons_self a t)
    have ht : ∀ x ∈ t, (pyStartsWith x bl || pyStartsWith x plb) = false ∧
        containsSub ph (lowerStr x) = false :=
      fun x hx => hpre x (List.mem_cons_of_mem a hx)
    have step : extractFieldLines bl plb ph ((a :: t) ++ l :: post) =
        extractFieldLines bl plb ph (t ++ l :: post) := by
      simp [extractFieldLines, ha.1, ha.2]
    obtain ⟨ih1, ih2⟩ := ih ht
    exact ⟨fun hl => step.trans (ih1 hl),
           fun hl hph => step.trans (ih2 hl hph)⟩

/-- Witness for the amended claim C2: a phrase line without a colon, placed
before a literal-label line, makes the field absent. -/
theorem c2_single_pass_extraction_w :
    extractFieldLines "**Phase:**" "Phase:" "current phase"
      (["# Title"] ++ "our current phase" :: ["Phase: Build"]) = none := by
  have h := ((c2_single_pass_extraction.2.2 "**Phase:**" "Phase:"
      "current phase" ["# Title"] ["Phase: Build"] "our current phase")
      (by decide)).2 (by decide) (by decide)
  exact h.trans (by decide)

/-- Claim C3 (code bug): on the two-line document
"**Phase:** Build\n**Focus:** Auth" the extractors return " Build" and
" Auth" — the space after the bold marker survives because the code strips
whitespace before it strips asterisks — whereas the claim (and the clear
intent of `strip().strip("*")`) is the fully trimmed "Build" / "Auth". -/
theorem c3_bold_label_keeps_leading_space :
    extract_current_phase "**Phase:** Build\n**Focus:** Auth" = some " Build" ∧
    extract_current_focus "**Phase:** Build\n**Focus:** Auth" = some " Auth" ∧
    (" Build" : String) ≠ "Build" ∧ (" Auth" : String) ≠ "Auth" :=
  ⟨by decide, by decide, by decide, by decide⟩

/-- Claim C4, counterexample: with every field absent the composed message
is not just the introductory line followed by the trailing line — the
composer always inserts one empty separator line before the trailing
line. -/
theorem c4_blank_separator_counterexample :
    build_context_message_pure none none [] none none ≠
      "This project uses **Directions** for documentation and workflow.\n" ++
      "Use `/status` for full details or `/log` to update the session log." :=
  by decide

/-- Claim C4, amended: when the project is detected and phase, focus,
blockers and session record are all absent, the composed message consists
of the introductory line, a single empty separator line, and the trailing
instructional line — no labeled or placeholder lines for the absent
fields.  The last conjunct states the same for the full composer reading
an absent status document and an absent sessions directory. -/
theorem c4_absent_fields_omitted :
    build_context_parts none none [] none none =
      ["This project uses **Directions** for documentation and workflow.",
       "",
       "Use `/status` for full details or `/log` to update the session log."] ∧
    build_context_message_pure none none [] none none =
      "This project uses **Directions** for documentation and workflow.\n\n" ++
      "Use `/status` for full details or `/log` to update the session log." ∧
    build_context_message none none =
      "This project uses **Directions** for documentation and workflow.\n\n" ++
      "Use `/status` for full details or `/log` to update the session log." :=
  ⟨by decide, by decide, by decide⟩

/-- Claim C5: when two rules at table positions `i < j` both match a
prompt, the router returns the earliest matching rule in table order — a
rule at some position `k ≤ i` that matches — independently of where the
keywords occur inside the prompt (the hypotheses only mention that the
rules match, not where). -/
theorem c5_earliest_rule_wins (prompt : String) (i j : Nat)
    (hi : i < DOC_MAPPINGS.length) (hj : j < DOC_MAPPINGS.length)
    (hij : i < j)
    (hmi : ruleMatches (lowerStr prompt) (DOC_MAPPINGS.get ⟨i, hi⟩) = true)
    (hmj : ruleMatches (lowerStr prompt) (DOC_MAPPINGS.get ⟨j, hj⟩) = true) :
    ∃ k, ∃ hk : k < DOC_MAPPINGS.length, k ≤ i ∧
      ruleMatches (lowerStr prompt) (DOC_MAPPINGS.get ⟨k, hk⟩) = true ∧
      find_matching_doc prompt = some (DOC_MAPPINGS.get ⟨k, hk⟩) := by
  obtain ⟨k, hk, hki, hpk, hfind⟩ :=
    find_first_of_get (ruleMatches (lowerStr prompt)) DOC_MAPPINGS i hi hmi
  exact ⟨k, hk, hki, hpk, hfind⟩

/-- Witness for claim C5: "coordinate crash" matches rule 0 (coordinate
systems) and rule 3 (debugging); the router returns the rule at position
`k ≤ 0`. -/
theorem c5_earliest_rule_wins_w :
    ∃ k, ∃ hk : k < DOC_MAPPINGS.length, k ≤ 0 ∧
      ruleMatches (lowerStr "coordinate crash")
        (DOC_MAPPINGS.get ⟨k, hk⟩) = true ∧
      find_matching_doc "coordinate crash" =
        some (DOC_MAPPINGS.get ⟨k, hk⟩) :=
  c5_earliest_rule_wins "coordinate crash" 0 3 (by decide) (by decide)
    (by decide) (by decide) (by decide)

/-- Claim C6: keywords of length at most 4 match only at word boundaries —
whenever such a keyword matches, the lowercased prompt decomposes around an
occurrence flanked by non-word characters or string edges.  In particular
"pray" contains the short keyword "pr" as a substring but the router does
not match it, and no rule matches "pray" at all. -/
theorem c6_short_keywords_word_boundary :
    (∀ (kw pl : String), kw.length ≤ 4 → keywordMatches kw pl = true →
      ∃ pre post, pl.data = pre ++ kw.data ++ post ∧
        okBoundaryBefore (lastOpt none pre) = true ∧
        okBoundaryAfter post = true) ∧
    containsSub "pr" (lowerStr "pray") = true ∧
    keywordMatches "pr" (lowerStr "pray") = false ∧
    find_matching_doc "pray" = none := by
  refine ⟨?_, by decide, by decide, by decide⟩
  intro kw pl hlen hm
  unfold keywordMatches at hm
  rw [if_pos hlen] at hm
  exact wbSearchAux_sound kw.data pl.data none hm

/-- Witness for claim C6: "pr" does match "fix the pr now", and the matched
occurrence is flanked by word boundaries. -/
theorem c6_short_keywords_word_boundary_w :
    ("pr" : String).length ≤ 4 ∧
    keywordMatches "pr" "fix the pr now" = true ∧
    ∃ pre post, ("fix the pr now" : String).data =
        pre ++ ("pr" : String).data ++ post ∧
      okBoundaryBefore (lastOpt none pre) = true ∧
      okBoundaryAfter post = true :=
  ⟨by decide, by decide,
    c6_short_keywords_word_boundary.1 "pr" "fix the pr now"
      (by decide) (by decide)⟩

/-- Claim C7: blocker extraction collects bullets between the trigger line
and the next heading, strips markers and whitespace, and drops "none"
case-insensitively: the two documents of the claim yield exactly
["API rate limits"] and [], and (third conjunct) collection stops at the
next heading — everything after it is ignored, whatever it is. -/
theorem c7_blockers_section :
    extract_blockers "## Blockers\n- API rate limits\n- none\n## Next" =
      ["API rate limits"] ∧
    extract_blockers "## Blockers\n- None" = [] ∧
    ∀ rest : List String,
      extract_blockers_loop
        (["## Blockers", "- API rate limits", "- none", "## Next"] ++ rest)
        false [] = ["API rate limits"] :=
  ⟨by decide, by decide, fun _ => rfl⟩

/-- Claim C8: the session log locator selects, among the directory's
markdown files excluding "_index.md", the first name in reverse
lexicographic order — the returned name is a qualifying name and no
qualifying name is greater — returning absent when the directory is
missing or has no qualifying files; and the summary scan equals its
declarative specification: the first line that after trimming is
non-empty, not a heading and longer than 10 characters, truncated to 100
characters plus an ellipsis when longer than 100 and verbatim otherwise,
absent when no such line exists. -/
theorem c8_session_selection_and_summary :
    get_latest_session none = (none, none) ∧
    (∀ d : FsDir, qualifying d = [] →
      get_latest_session (some d) = (none, none)) ∧
    (∀ (d : FsDir) (n : String), (get_latest_session (some d)).1 = some n →
      n ∈ qualifying d ∧ ∀ m ∈ qualifying d, pyLt n m = false) ∧
    (∀ ls : List String, summary_loop ls = summarySpec ls) := by
  refine ⟨rfl, ?_, ?_, summary_loop_eq⟩
  · intro d hq
    simp [get_latest_session, hq, sortDesc]
  · intro d n h
    cases hs : sortDesc (qualifying d) with
    | nil =>
      simp only [get_latest_session, hs] at h
      simp at h
    | cons a t =>
      simp only [get_latest_session, hs] at h
      have han : a = n := by simpa using h
      subst han
      exact sortDesc_head_spec (qualifying d) a t hs

/-- Witness for claim C8: in a directory holding "2024-01-02.md",
"_index.md" and "2024-03-10.md", the locator picks "2024-03-10.md", which
is a qualifying file of that directory. -/
theorem c8_session_selection_and_summary_w :
    "2024-03-10.md" ∈ qualifying
      (⟨[⟨"2024-01-02.md", some "a"⟩, ⟨"_index.md", some "b"⟩,
         ⟨"2024-03-10.md", some "c"⟩]⟩ : FsDir) :=
  (c8_session_selection_and_summary.2.2.1
    ⟨[⟨"2024-01-02.md", some "a"⟩, ⟨"_index.md", some "b"⟩,
      ⟨"2024-03-10.md", some "c"⟩]⟩ "2024-03-10.md" (by decide)).1

/-- Claim C9: an unreadable resource becomes absence at the point of
access and never aborts the composition: when the chosen log file is
unreadable (`read_file_safely` yields `none`) the locator still returns
the file name with the summary absent, and the full composition pipeline
is a total function — every input produces a message. -/
theorem c9_unreadable_is_absence :
    (∀ (d : FsDir) (n : String), (get_latest_session (some d)).1 = some n →
      read_file_safely d n = none →
      get_latest_session (some d) = (some n, none)) ∧
    (∀ (state_content : Option String) (sessions : Option FsDir),
      ∃ msg : String, build_context_message state_content sessions = msg) := by
  refine ⟨?_, fun sc ss => ⟨_, rfl⟩⟩
  intro d n h hr
  cases hs : sortDesc (qualifying d) with
  | nil =>
    simp only [get_latest_session, hs] at h
    simp at h
  | cons a t =>
    simp only [get_latest_session, hs] at h ⊢
    have han : a = n := by simpa using h
    subst han
    simp [hr]

/-- Witness for claim C9: a directory whose only log file is unreadable
still yields the file name, with the summary absent. -/
theorem c9_unreadable_is_absence_w :
    get_latest_session (some (⟨[⟨"2024-01-01.md", none⟩]⟩ : FsDir)) =
      (some "2024-01-01.md", none) :=
  c9_unreadable_is_absence.1 ⟨[⟨"2024-01-01.md", none⟩]⟩ "2024-01-01.md"
    (by decide) (by decide)

/-- Claim C10: the locator never produces a summary without a selected
file: a present summary implies a present file name; no qualifying file
means both components absent; and a chosen file with empty content yields
the file name with the summary absent. -/
theorem c10_summary_only_with_file :
    (∀ dir : Option FsDir, ((get_latest_session dir).2).isSome = true →
      ((get_latest_session dir).1).isSome = true) ∧
    (∀ d : FsDir, qualifying d = [] →
      get_latest_session (some d) = (none, none)) ∧
    (∀ (d : FsDir) (n : String), (get_latest_session (some d)).1 = some n →
      read_file_safely d n = some "" →
      get_latest_session (some d) = (some n, none)) := by
  refine ⟨?_, ?_, ?_⟩
  · intro dir h
    cases dir with
    | none => exact absurd h (by decide)
    | some d =>
      cases hs : sortDesc (qualifying d) with
      | nil =>
        simp only [get_latest_session, hs] at h
        simp at h
      | cons a t =>
        simp [get_latest_session, hs]
  · intro d hq
    simp [get_latest_session, hq, sortDesc]
  · intro d n h hr
    cases hs : sortDesc (qualifying d) with
    | nil =>
      simp only [get_latest_session, hs] at h
      simp at h
    | cons a t =>
      simp only [get_latest_session, hs] at h ⊢
      have han : a = n := by simpa using h
      subst han
      simp [hr, isEmptyStr]

/-- Witness for claim C10: a chosen file whose content is empty yields a
present file name with an absent summary. -/
theorem c10_summary_only_with_file_w :
    get_latest_session (some (⟨[⟨"2024-01-01.md", some ""⟩]⟩ : FsDir)) =
      (some "2024-01-01.md", none) :=
  c10_summary_only_with_file.2.2 ⟨[⟨"2024-01-01.md", some ""⟩]⟩
    "2024-01-01.md" (by decide) (by decide)
